import Mathlib

/-!
Shallow embedding of `src/pyblish/logic.py` ("Shared processing logic").

The engine drives plugins over a context of instances, filters instances
by family compatibility, invokes a caller-supplied function per
(plugin, instance) pair, records the orders at which domain errors
occurred, and stops when the registered test rejects continuation.

Modelling choices, each noted at the definition it concerns:
  * a Python callable supplied as `func` is modelled as a pure Lean
    function returning `Except ε ResultRecord`: `Except.error e` models the
    callable raising exception `e`, `Except.ok r` a normal return;
  * `process` is a Python generator; we model the full trace it produces:
    the list of yielded values, paired with `Option EngineError` recording
    whether the generator ended by raising (an unhandled `AttributeError`)
    instead of finishing normally;
  * `plugins` and `context` may be callables in Python, resolved to a list
    before / during the loop; we model the resolved values;
  * the module-global introspection pointers `process.next_plugin` /
    `process.next_instance` are write-only telemetry and are not modelled;
  * `_extract_traceback` only decorates the raised exception object with
    best-effort location info; the exception value `e` itself is yielded
    unchanged, so the decoration is not modelled.
-/

namespace Pyblish

/-- Modelled from the spec: an `Instance` (class in plugin.py, which is not
among the given source files) is a named mutable data bag with at least a
`family` attribute; `logic.py` consults it only through
`instance.data("family")`, modelled as the `family` field. -/
structure Inst where
  family : String
deriving Repr, DecidableEq

/-- A plug-in as `logic.py` consumes it: a numeric `order`, an optional
`families` attribute (`none` models a plugin object lacking the attribute,
which `hasattr` checks guard in the filter functions), and its `process`
callable. Modelled from the spec for the callable part: the
DependencyResolver inspects an invocation target only for its declared
parameter names, so the target is represented by that list of names. -/
structure Plugin where
  order : Int
  families : Option (List String)
  process : List String
deriving Repr, DecidableEq

/-- The result dictionary produced by the caller-supplied `func`
(docstring of `process`):
`{success, plugin, instance, error, records, duration}`.
The engine reads only the truthiness of `error`, modelled as
`Option String` (`some` = truthy error info, `none` = no error);
`records` and `duration` are never read by the engine and are omitted. -/
structure ResultRecord where
  success : Bool
  plugin : Plugin
  inst : Option Inst
  error : Option String
deriving Repr, DecidableEq

/-- The `vars` dictionary threaded through a run: `order` of the plugin
being considered and `errorOrders`, the orders at which an error occurred.
In the source `vars["order"]` starts as `None`, but it is overwritten with
`plugin.order` before every use (test call or `TestFailed`), so the initial
`None` is never observable and `order` is modelled as `Int`. -/
structure Vars where
  order : Int
  errorOrders : List Int
deriving Repr, DecidableEq

/-- One value yielded by the `process` generator: a result dictionary, an
exception raised by `func` (`yield exception`), or a `TestFailed` carrying
the `vars` of the failed test. -/
inductive Outcome (ε : Type) where
  | result : ResultRecord → Outcome ε
  | exception : ε → Outcome ε
  | testFailed : Vars → Outcome ε
deriving Repr, DecidableEq

/-- An error raised (not yielded) by the generator itself: accessing a
missing attribute, as at `"*" not in plugin.families` for a plugin without
a `families` attribute. -/
inductive EngineError where
  | attributeError : String → EngineError
deriving Repr, DecidableEq

/-- Modelled from the spec: `Provider.args` (plugin.py, not among the given
source files) returns the declared parameter names of a callable
(§4.4 DependencyResolver). Since a target is modelled by its declared
parameter names, `args` is the projection. -/
def Provider.args (target : List String) : List String := target

/-- `default_test` (logic.py lines 16-36): continue unless validation has
been reached (`order >= 2`) and some recorded error order is `< 2`. -/
def default_test (order : Int) (errorOrders : List Int) : Bool :=
  if 2 ≤ order then
    !(errorOrders.any fun o => decide (o < 2))
  else
    true

/-- Modelled from the spec: the process-wide registered test read by
`registered_test()` (set in the package root, not among the given source
files) defaults to `default_test`; §4.3: `deregisterTest()` restores the
default. A run with `test=None` therefore uses `default_test`. -/
def registered_test : Int → List Int → Bool := default_test

/-- `plugins_by_family` (logic.py lines 225-246): keep the plugins whose
`families` contains `family` or `"*"`; a plugin without the attribute is
skipped by the `hasattr` guard. -/
def plugins_by_family : List Plugin → String → List Plugin
  | [], _ => []
  | plugin :: rest, family =>
    match plugin.families with
    | none => plugins_by_family rest family
    | some fams =>
      if family ∈ fams ∨ "*" ∈ fams then
        plugin :: plugins_by_family rest family
      else
        plugins_by_family rest family

/-- `instances_by_plugin` (logic.py lines 289-314): keep the instances
whose `family` is in `plugin.families` or matched by `"*"`; every instance
is skipped when the plugin lacks the `families` attribute. -/
def instances_by_plugin : List Inst → Plugin → List Inst
  | [], _ => []
  | inst :: rest, plugin =>
    match plugin.families with
    | none => instances_by_plugin rest plugin
    | some fams =>
      if inst.family ∈ fams ∨ "*" ∈ fams then
        inst :: instances_by_plugin rest plugin
      else
        instances_by_plugin rest plugin

/-- The inner generator `gen` (logic.py lines 119-125): the instances
themselves when there are any, else a single `None`. -/
def gen (instances : List Inst) : List (Option Inst) :=
  if instances.length > 0 then instances.map some else [none]

/-- Lines 167-169: when the result carries a truthy `error`, append
`plugin.order` to `errorOrders` unless already present. -/
def recordError (order : Int) (error : Option String) (errorOrders : List Int) :
    List Int :=
  if error.isSome then
    if order ∉ errorOrders then errorOrders ++ [order] else errorOrders
  else
    errorOrders

/-- The value yielded for one invocation (lines 156-170): the exception
when `func` raised, else the returned result dictionary. -/
def invokeOutcome : Except ε ResultRecord → Outcome ε
  | Except.error _e => Outcome.exception _e
  | Except.ok r => Outcome.result r

/-- The `errorOrders` after one invocation: unchanged when `func` raised
(lines 159-162 bypass the error bookkeeping), else updated per
`recordError`. -/
def invokeOrders (order : Int) : Except ε ResultRecord → List Int → List Int
  | Except.error _, eo => eo
  | Except.ok r, eo => recordError order r.error eo

/-- The `for instance in gen(instances)` loop of `process`
(lines 150-176): invoke `func` per instance, yield the outcome, update
`errorOrders`, and break after the first invocation when the plugin's
`process` callable declares no `instance` parameter (lines 174-176).
Returns the yielded outcomes and the final `errorOrders`. -/
def runInstances (func : Plugin → List Inst → Option Inst → Except ε ResultRecord)
    (context : List Inst) (plugin : Plugin) :
    List (Option Inst) → List Int → List (Outcome ε) × List Int
  | [], errorOrders => ([], errorOrders)
  | inst :: rest, errorOrders =>
    let r := func plugin context inst
    if "instance" ∈ Provider.args plugin.process then
      let next := runInstances func context plugin rest
        (invokeOrders plugin.order r errorOrders)
      (invokeOutcome r :: next.1, next.2)
    else
      ([invokeOutcome r], invokeOrders plugin.order r errorOrders)

/-- The `for plugin in plugins` loop of `process` (lines 137-180),
carrying `errorOrders`. Branches, in source order:
  * test fails: yield `TestFailed` with the current `vars` and break;
  * test passes and `instances_by_plugin` is empty: evaluating
    `"*" not in plugin.families` raises `AttributeError` when the plugin
    lacks `families`; otherwise skip the plugin (`continue`) unless its
    families contain the wildcard;
  * otherwise run the instance loop and go on with the next plugin.
Note `plugin.families` is *not* read at line 147 when the instance list is
non-empty (Python's `and` short-circuits). -/
def processLoop (func : Plugin → List Inst → Option Inst → Except ε ResultRecord)
    (context : List Inst) (test : Int → List Int → Bool) :
    List Plugin → List Int → List (Outcome ε) × Option EngineError
  | [], _ => ([], none)
  | plugin :: rest, errorOrders =>
    if test plugin.order errorOrders then
      let instances := instances_by_plugin context plugin
      if instances.isEmpty then
        match plugin.families with
        | none => ([], some (EngineError.attributeError "families"))
        | some fams =>
          if "*" ∈ fams then
            let block := runInstances func context plugin (gen instances) errorOrders
            let next := processLoop func context test rest block.2
            (block.1 ++ next.1, next.2)
          else
            processLoop func context test rest errorOrders
      else
        let block := runInstances func context plugin (gen instances) errorOrders
        let next := processLoop func context test rest block.2
        (block.1 ++ next.1, next.2)
    else
      ([Outcome.testFailed ⟨plugin.order, errorOrders⟩], none)

/-- `process` (logic.py lines 39-180): full trace of the generator.
`test = none` models the Python default `test=None`, resolved once at
entry to the registered test. Returns the yielded outcomes and whether
the generator ended by raising an `EngineError`. -/
def process (func : Plugin → List Inst → Option Inst → Except ε ResultRecord)
    (plugins : List Plugin) (context : List Inst)
    (test : Option (Int → List Int → Bool)) :
    List (Outcome ε) × Option EngineError :=
  processLoop func context (test.getD registered_test) plugins []

/-!
Specification-side definitions: predicates stated from the spec's words,
against which the translated loops above are compared, plus recognizers
used in theorem statements.
-/

/-- The spec's compatibility predicate (§4.2): `families` contains the tag
or the wildcard; a missing `families` attribute is compatible with
nothing. -/
def familyMatch (families : Option (List String)) (family : String) : Bool :=
  match families with
  | none => false
  | some fams => decide (family ∈ fams) || decide ("*" ∈ fams)

/-- Recognizer for the abort outcome. -/
def isTestFailedB : Outcome ε → Bool
  | Outcome.testFailed _ => true
  | _ => false

/-- Whether the engine reaches the invocation loop for `plugin` against
`context` (the spec's "family filter matches"): some instance is
compatible, or the plugin's families contain the wildcard. -/
def pluginMatches (context : List Inst) (plugin : Plugin) : Bool :=
  !(instances_by_plugin context plugin).isEmpty
    || (plugin.families.getD []).contains "*"

/-- The block of outcomes the engine yields for one plugin in an
error-free run (one where `errorOrders` stays empty). -/
def pluginBlock {ε : Type}
    (func : Plugin → List Inst → Option Inst → Except ε ResultRecord)
    (context : List Inst) (plugin : Plugin) : List (Outcome ε) :=
  if pluginMatches context plugin then
    (runInstances func context plugin (gen (instances_by_plugin context plugin)) []).1
  else []

/-!
Concrete fixtures, used by witnesses and the counterexample: instances of
the families used by the repository's test plugin (`families = ['full']`),
plugins at the conventional orders, and invocation functions that always
succeed and always raise.
-/

/-- An instance of family `"full"` (the family of the repository's
`ExtractInstances` test plugin). -/
def iFull : Inst := ⟨"full"⟩

/-- An instance of an unrelated family. -/
def iOther : Inst := ⟨"other"⟩

/-- A wildcard selector-stage plugin whose target takes an instance. -/
def pWild : Plugin := ⟨0, some ["*"], ["context", "instance"]⟩

/-- A plugin object lacking the `families` attribute. -/
def pNoFam : Plugin := ⟨0, none, ["context"]⟩

/-- A validator-stage plugin compatible with family `"full"` only. -/
def pFull : Plugin := ⟨1, some ["full"], ["context", "instance"]⟩

/-- An extractor-stage wildcard plugin whose target is context-scoped
(declares no `instance` parameter). -/
def pCtx : Plugin := ⟨2, some ["*"], ["context"]⟩

/-- An invocation function that always returns a successful result with no
error set. -/
def funcOk : Plugin → List Inst → Option Inst → Except Unit ResultRecord :=
  fun plugin _ inst => Except.ok ⟨true, plugin, inst, none⟩

/-- An invocation function that always raises. -/
def funcRaise : Plugin → List Inst → Option Inst → Except Unit ResultRecord :=
  fun _ _ _ => Except.error ()

/-!
Helper lemmas.
-/

theorem plugins_by_family_eq_filter (plugins : List Plugin) (family : String) :
    plugins_by_family plugins family
      = plugins.filter fun p => familyMatch p.families family := by
  induction plugins with
  | nil => rfl
  | cons p rest ih =>
    cases hf : p.families with
    | none => simp [plugins_by_family, hf, List.filter_cons, familyMatch, ih]
    | some fams =>
      by_cases hm : family ∈ fams ∨ "*" ∈ fams
      · simp [plugins_by_family, hf, List.filter_cons, familyMatch, ih, hm]
      · push_neg at hm
        simp [plugins_by_family, hf, List.filter_cons, familyMatch, ih, hm.1, hm.2]

theorem mem_plugins_by_family (plugins : List Plugin) (family : String) (p : Plugin) :
    p ∈ plugins_by_family plugins family
      ↔ p ∈ plugins ∧ ∃ fams, p.families = some fams ∧ (family ∈ fams ∨ "*" ∈ fams) := by
  rw [plugins_by_family_eq_filter, List.mem_filter]
  cases hf : p.families with
  | none => simp [familyMatch, hf]
  | some fams => simp [familyMatch, hf]

theorem instances_by_plugin_eq_filter (instances : List Inst) (plugin : Plugin) :
    instances_by_plugin instances plugin
      = instances.filter fun i => familyMatch plugin.families i.family := by
  induction instances with
  | nil => rfl
  | cons i rest ih =>
    cases hf : plugin.families with
    | none => simp [instances_by_plugin, hf, List.filter_cons, familyMatch, ih]
    | some fams =>
      by_cases hm : i.family ∈ fams ∨ "*" ∈ fams
      · simp [instances_by_plugin, hf, List.filter_cons, familyMatch, ih, hm]
      · push_neg at hm
        simp [instances_by_plugin, hf, List.filter_cons, familyMatch, ih, hm.1, hm.2]

theorem mem_instances_by_plugin (instances : List Inst) (plugin : Plugin) (i : Inst) :
    i ∈ instances_by_plugin instances plugin
      ↔ i ∈ instances
        ∧ ∃ fams, plugin.families = some fams ∧ (i.family ∈ fams ∨ "*" ∈ fams) := by
  rw [instances_by_plugin_eq_filter, List.mem_filter]
  cases hf : plugin.families with
  | none => simp [familyMatch, hf]
  | some fams => simp [familyMatch, hf]

theorem instances_by_plugin_none (instances : List Inst) (plugin : Plugin)
    (h : plugin.families = none) : instances_by_plugin instances plugin = [] := by
  simp [instances_by_plugin_eq_filter, familyMatch, h]

theorem default_test_false_iff (order : Int) (errorOrders : List Int) :
    default_test order errorOrders = false
      ↔ 2 ≤ order ∧ ∃ o ∈ errorOrders, o < 2 := by
  by_cases h : 2 ≤ order
  · simp [default_test, h, List.any_eq_true]
  · simp [default_test, h]

theorem default_test_nil (order : Int) : default_test order [] = true := by
  by_cases h : 2 ≤ order <;> simp [default_test, h]

theorem recordError_cases (order : Int) (err : Option String) (eo : List Int) :
    recordError order err eo = eo
      ∨ (order ∉ eo ∧ recordError order err eo = eo ++ [order]) := by
  unfold recordError
  by_cases he : err.isSome
  · by_cases hm : order ∈ eo
    · simp [he, hm]
    · simp [he, hm]
  · simp [he]

theorem recordError_mem (order : Int) (err : Option String) (eo : List Int)
    (h : order ∈ eo) : recordError order err eo = eo := by
  simp [recordError, h]

theorem recordError_length (order : Int) (err : Option String) (eo : List Int) :
    eo.length ≤ (recordError order err eo).length := by
  rcases recordError_cases order err eo with h | ⟨_, h⟩ <;> simp [h]

theorem recordError_nodup (order : Int) (err : Option String) (eo : List Int)
    (h : eo.Nodup) : (recordError order err eo).Nodup := by
  rcases recordError_cases order err eo with heq | ⟨hm, heq⟩
  · rw [heq]; exact h
  · rw [heq]
    simp [List.nodup_append, h, hm]

theorem invokeOrders_extends {ε : Type} (order : Int) (r : Except ε ResultRecord)
    (eo : List Int) : ∃ t, invokeOrders order r eo = eo ++ t := by
  cases r with
  | error e => exact ⟨[], by simp [invokeOrders]⟩
  | ok res =>
    rcases recordError_cases order res.error eo with h | ⟨_, h⟩
    · exact ⟨[], by simp [invokeOrders, h]⟩
    · exact ⟨[order], by simp [invokeOrders, h]⟩

theorem invokeOrders_nodup {ε : Type} (order : Int) (r : Except ε ResultRecord)
    (eo : List Int) (h : eo.Nodup) : (invokeOrders order r eo).Nodup := by
  cases r with
  | error e => exact h
  | ok res => exact recordError_nodup _ _ _ h

theorem runInstances_fst_indep {ε : Type}
    (func : Plugin → List Inst → Option Inst → Except ε ResultRecord)
    (context : List Inst) (plugin : Plugin) :
    ∀ (insts : List (Option Inst)) (eo eo' : List Int),
      (runInstances func context plugin insts eo).1
        = (runInstances func context plugin insts eo').1 := by
  intro insts
  induction insts with
  | nil => intro eo eo'; rfl
  | cons i rest ih =>
    intro eo eo'
    by_cases h : "instance" ∈ Provider.args plugin.process
    · simp [runInstances, h]
      exact ih _ _
    · simp [runInstances, h]

theorem runInstances_no_testFailed {ε : Type}
    (func : Plugin → List Inst → Option Inst → Except ε ResultRecord)
    (context : List Inst) (plugin : Plugin) :
    ∀ (insts : List (Option Inst)) (eo : List Int) (v : Vars),
      Outcome.testFailed v ∉ (runInstances func context plugin insts eo).1 := by
  intro insts
  induction insts with
  | nil => intro eo v; simp [runInstances]
  | cons i rest ih =>
    intro eo v
    by_cases h : "instance" ∈ Provider.args plugin.process
    · simp [runInstances, h, invokeOutcome]
      constructor
      · cases hr : func plugin context i <;> simp [invokeOutcome]
      · exact ih _ v
    · simp [runInstances, h]
      cases hr : func plugin context i <;> simp [invokeOutcome]

theorem runInstances_snd_extends {ε : Type}
    (func : Plugin → List Inst → Option Inst → Except ε ResultRecord)
    (context : List Inst) (plugin : Plugin) :
    ∀ (insts : List (Option Inst)) (eo : List Int),
      ∃ t, (runInstances func context plugin insts eo).2 = eo ++ t := by
  intro insts
  induction insts with
  | nil => intro eo; exact ⟨[], by simp [runInstances]⟩
  | cons i rest ih =>
    intro eo
    by_cases h : "instance" ∈ Provider.args plugin.process
    · obtain ⟨t1, ht1⟩ := invokeOrders_extends plugin.order (func plugin context i) eo
      obtain ⟨t2, ht2⟩ := ih (invokeOrders plugin.order (func plugin context i) eo)
      refine ⟨t1 ++ t2, ?_⟩
      simp [runInstances, h]
      rw [ht2, ht1, List.append_assoc]
    · obtain ⟨t1, ht1⟩ := invokeOrders_extends plugin.order (func plugin context i) eo
      exact ⟨t1, by simp [runInstances, h, ht1]⟩

theorem runInstances_snd_nodup {ε : Type}
    (func : Plugin → List Inst → Option Inst → Except ε ResultRecord)
    (context : List Inst) (plugin : Plugin) :
    ∀ (insts : List (Option Inst)) (eo : List Int), eo.Nodup →
      (runInstances func context plugin insts eo).2.Nodup := by
  intro insts
  induction insts with
  | nil => intro eo h; exact h
  | cons i rest ih =>
    intro eo h
    by_cases hp : "instance" ∈ Provider.args plugin.process
    · simp [runInstances, hp]
      exact ih _ (invokeOrders_nodup _ _ _ h)
    · simp [runInstances, hp]
      exact invokeOrders_nodup _ _ _ h

theorem runInstances_length_pos {ε : Type}
    (func : Plugin → List Inst → Option Inst → Except ε ResultRecord)
    (context : List Inst) (plugin : Plugin) (i : Option Inst)
    (rest : List (Option Inst)) (eo : List Int) :
    0 < (runInstances func context plugin (i :: rest) eo).1.length := by
  by_cases hp : "instance" ∈ Provider.args plugin.process
  · simp [runInstances, hp]
  · simp [runInstances, hp]

theorem gen_ne_nil (instances : List Inst) : gen instances ≠ [] := by
  unfold gen
  by_cases h : instances.length > 0
  · simp [h]
    cases instances with
    | nil => simp at h
    | cons a l => simp
  · simp [h]

theorem runInstances_snd_no_error {ε : Type}
    (func : Plugin → List Inst → Option Inst → Except ε ResultRecord)
    (context : List Inst) (plugin : Plugin)
    (herr : ∀ p c i r, func p c i = Except.ok r → r.error = none) :
    ∀ (insts : List (Option Inst)) (eo : List Int),
      (runInstances func context plugin insts eo).2 = eo := by
  have hstep : ∀ (i : Option Inst) (eo : List Int),
      invokeOrders plugin.order (func plugin context i) eo = eo := by
    intro i eo
    cases hr : func plugin context i with
    | error e => rfl
    | ok r =>
      have := herr plugin context i r hr
      simp [invokeOrders, recordError, this]
  intro insts
  induction insts with
  | nil => intro eo; rfl
  | cons i rest ih =>
    intro eo
    by_cases hp : "instance" ∈ Provider.args plugin.process
    · simp [runInstances, hp, hstep, ih]
    · simp [runInstances, hp, hstep]

theorem abortSpec_append {ε : Type} (blk next : List (Outcome ε)) (err : Option EngineError)
    (hblk : ∀ v, Outcome.testFailed v ∉ blk)
    (h1 : next.countP isTestFailedB ≤ 1)
    (h2 : ∀ v, Outcome.testFailed v ∈ next →
        next.getLast? = some (Outcome.testFailed v) ∧ err = none) :
    (blk ++ next).countP isTestFailedB ≤ 1
    ∧ ∀ v, Outcome.testFailed v ∈ blk ++ next →
        (blk ++ next).getLast? = some (Outcome.testFailed v) ∧ err = none := by
  have hcount : blk.countP isTestFailedB = 0 := by
    rw [List.countP_eq_zero]
    intro a ha
    cases a with
    | testFailed v => exact absurd ha (hblk v)
    | result r => simp [isTestFailedB]
    | exception e => simp [isTestFailedB]
  constructor
  · rw [List.countP_append, hcount]
    simpa using h1
  · intro v hv
    rcases List.mem_append.mp hv with hb | hn
    · exact absurd hb (hblk v)
    · have hne : next ≠ [] := List.ne_nil_of_mem hn
      obtain ⟨hl, he⟩ := h2 v hn
      refine ⟨?_, he⟩
      rw [List.getLast?_append_of_ne_nil _ hne]
      exact hl

theorem processLoop_abort_aux {ε : Type}
    (func : Plugin → List Inst → Option Inst → Except ε ResultRecord)
    (context : List Inst) (test : Int → List Int → Bool) :
    ∀ (plugins : List Plugin) (eo : List Int),
      (processLoop func context test plugins eo).1.countP isTestFailedB ≤ 1
      ∧ ∀ v, Outcome.testFailed v ∈ (processLoop func context test plugins eo).1 →
          (processLoop func context test plugins eo).1.getLast?
              = some (Outcome.testFailed v)
          ∧ (processLoop func context test plugins eo).2 = none := by
  intro plugins
  induction plugins with
  | nil =>
    intro eo
    refine ⟨by simp [processLoop], ?_⟩
    intro v hv
    simp [processLoop] at hv
  | cons plugin rest ih =>
    intro eo
    by_cases ht : test plugin.order eo = true
    · by_cases hins : (instances_by_plugin context plugin).isEmpty
      · cases hf : plugin.families with
        | none =>
          refine ⟨by simp [processLoop, ht, hins, hf], ?_⟩
          intro v hv
          simp [processLoop, ht, hins, hf] at hv
        | some fams =>
          by_cases hw : "*" ∈ fams
          · have := abortSpec_append
              (runInstances func context plugin
                (gen (instances_by_plugin context plugin)) eo).1
              (processLoop func context test rest
                (runInstances func context plugin
                  (gen (instances_by_plugin context plugin)) eo).2).1
              (processLoop func context test rest
                (runInstances func context plugin
                  (gen (instances_by_plugin context plugin)) eo).2).2
              (fun v => runInstances_no_testFailed func context plugin _ _ v)
              (ih _).1 (ih _).2
            simpa [processLoop, ht, hins, hf, hw] using this
          · simpa [processLoop, ht, hins, hf, hw] using ih eo
      · have := abortSpec_append
          (runInstances func context plugin
            (gen (instances_by_plugin context plugin)) eo).1
          (processLoop func context test rest
            (runInstances func context plugin
              (gen (instances_by_plugin context plugin)) eo).2).1
          (processLoop func context test rest
            (runInstances func context plugin
              (gen (instances_by_plugin context plugin)) eo).2).2
          (fun v => runInstances_no_testFailed func context plugin _ _ v)
          (ih _).1 (ih _).2
        simpa [processLoop, ht, hins] using this
    · refine ⟨by simp [processLoop, ht, isTestFailedB], ?_⟩
      intro v hv
      simp [processLoop, ht] at hv
      simp [processLoop, ht, hv]

theorem processLoop_testFailed_nodup {ε : Type}
    (func : Plugin → List Inst → Option Inst → Except ε ResultRecord)
    (context : List Inst) (test : Int → List Int → Bool) :
    ∀ (plugins : List Plugin) (eo : List Int), eo.Nodup →
      ∀ v, Outcome.testFailed v ∈ (processLoop func context test plugins eo).1 →
        v.errorOrders.Nodup := by
  intro plugins
  induction plugins with
  | nil => intro eo _ v hv; simp [processLoop] at hv
  | cons plugin rest ih =>
    intro eo hnd v hv
    by_cases ht : test plugin.order eo = true
    · by_cases hins : (instances_by_plugin context plugin).isEmpty
      · cases hf : plugin.families with
        | none => simp [processLoop, ht, hins, hf] at hv
        | some fams =>
          by_cases hw : "*" ∈ fams
          · simp [processLoop, ht, hins, hf, hw] at hv
            rcases hv with hb | hn
            · exact absurd hb (runInstances_no_testFailed func context plugin _ _ v)
            · exact ih _ (runInstances_snd_nodup func context plugin _ _ hnd) v hn
          · simp only [processLoop, ht, if_true, hins, hf, hw] at hv
            exact ih _ hnd v (by simpa using hv)
      · simp [processLoop, ht, hins] at hv
        rcases hv with hb | hn
        · exact absurd hb (runInstances_no_testFailed func context plugin _ _ v)
        · exact ih _ (runInstances_snd_nodup func context plugin _ _ hnd) v hn
    · simp [processLoop, ht] at hv
      rw [hv]
      exact hnd

theorem processLoop_no_error_eq {ε : Type}
    (func : Plugin → List Inst → Option Inst → Except ε ResultRecord)
    (context : List Inst)
    (herr : ∀ p c i r, func p c i = Except.ok r → r.error = none) :
    ∀ (plugins : List Plugin), (∀ p ∈ plugins, p.families ≠ none) →
      processLoop func context default_test plugins []
        = ((plugins.map (pluginBlock func context)).flatten, none) := by
  intro plugins
  induction plugins with
  | nil => intro _; rfl
  | cons plugin rest ih =>
    intro hfam
    have ht : default_test plugin.order [] = true := default_test_nil _
    have hrest := ih (fun p hp => hfam p (List.mem_cons_of_mem _ hp))
    cases hf : plugin.families with
    | none => exact absurd hf (hfam plugin (List.mem_cons_self _ _))
    | some fams =>
      by_cases hins : (instances_by_plugin context plugin).isEmpty
      · by_cases hw : "*" ∈ fams
        · have hmatch : pluginMatches context plugin = true := by
            simp [pluginMatches, hf, hw]
          simp [processLoop, ht, hins, hf, hw,
            runInstances_snd_no_error func context plugin herr, hrest,
            pluginBlock, hmatch]
        · have hmatch : pluginMatches context plugin = false := by
            simp [pluginMatches, hf, hins, hw]
          simp [processLoop, ht, hins, hf, hw, hrest, pluginBlock, hmatch]
      · have hmatch : pluginMatches context plugin = true := by
          simp [pluginMatches, hins]
        simp [processLoop, ht, hins,
          runInstances_snd_no_error func context plugin herr, hrest,
          pluginBlock, hmatch]

end Pyblish


namespace Pyblish

/-!
Claim theorems.
-/

/-- C3: `default_test` returns false iff `order >= 2` and some element of
`errorOrders` is `< 2`; in particular the three concrete evaluations of
the spec hold. -/
theorem default_test_spec :
    (∀ (order : Int) (errorOrders : List Int),
        default_test order errorOrders = false
          ↔ 2 ≤ order ∧ ∃ o ∈ errorOrders, o < 2)
      ∧ default_test 2 [1] = false
      ∧ default_test 2 [3] = true
      ∧ default_test 1 [0] = true :=
  ⟨default_test_false_iff, by decide, by decide, by decide⟩

/-- C8: `plugins_by_family` is the order-preserving filter keeping exactly
the plugins whose `families` contains the family or the wildcard; a
plugin lacking the `families` attribute is excluded (the embedding is
total: no error is raised). -/
theorem plugins_by_family_spec (plugins : List Plugin) (family : String) :
    plugins_by_family plugins family
        = plugins.filter (fun p => familyMatch p.families family)
      ∧ List.Sublist (plugins_by_family plugins family) plugins
      ∧ ∀ p, p ∈ plugins_by_family plugins family
          ↔ p ∈ plugins
            ∧ ∃ fams, p.families = some fams ∧ (family ∈ fams ∨ "*" ∈ fams) := by
  refine ⟨plugins_by_family_eq_filter plugins family, ?_,
    fun p => mem_plugins_by_family plugins family p⟩
  rw [plugins_by_family_eq_filter]
  exact List.filter_sublist _

/-- C9: `instances_by_plugin` is an order-preserving sublist of the input,
keeping exactly the instances whose family is in `plugin.families` or
matched by the wildcard; a plugin without `families` matches nothing. -/
theorem instances_by_plugin_spec (instances : List Inst) (plugin : Plugin) :
    instances_by_plugin instances plugin
        = instances.filter (fun i => familyMatch plugin.families i.family)
      ∧ List.Sublist (instances_by_plugin instances plugin) instances
      ∧ (plugin.families = none → instances_by_plugin instances plugin = [])
      ∧ ∀ i, i ∈ instances_by_plugin instances plugin
          ↔ i ∈ instances
            ∧ ∃ fams, plugin.families = some fams
                ∧ (i.family ∈ fams ∨ "*" ∈ fams) := by
  refine ⟨instances_by_plugin_eq_filter instances plugin, ?_,
    instances_by_plugin_none instances plugin,
    fun i => mem_instances_by_plugin instances plugin i⟩
  rw [instances_by_plugin_eq_filter]
  exact List.filter_sublist _

/-- C4: within a run, `errorOrders` only grows: one step is a no-op or
appends one absent order, size is non-decreasing, inserting a present
order is a no-op, Nodup is preserved through the instance loop (which
extends the list), and every `TestFailed` outcome of a run started from
the empty list carries a duplicate-free `errorOrders`. -/
theorem errorOrders_monotone_spec :
    (∀ (order : Int) (err : Option String) (eo : List Int),
        recordError order err eo = eo
          ∨ (order ∉ eo ∧ recordError order err eo = eo ++ [order]))
      ∧ (∀ (order : Int) (err : Option String) (eo : List Int),
          eo.length ≤ (recordError order err eo).length)
      ∧ (∀ (order : Int) (err : Option String) (eo : List Int),
          order ∈ eo → recordError order err eo = eo)
      ∧ (∀ (order : Int) (err : Option String) (eo : List Int), eo.Nodup →
          (recordError order err eo).Nodup)
      ∧ (∀ (ε : Type)
          (func : Plugin → List Inst → Option Inst → Except ε ResultRecord)
          (context : List Inst) (plugin : Plugin)
          (insts : List (Option Inst)) (eo : List Int),
          (∃ t, (runInstances func context plugin insts eo).2 = eo ++ t)
          ∧ (eo.Nodup → (runInstances func context plugin insts eo).2.Nodup))
      ∧ (∀ (ε : Type)
          (func : Plugin → List Inst → Option Inst → Except ε ResultRecord)
          (context : List Inst) (test : Int → List Int → Bool)
          (plugins : List Plugin) (v : Vars),
          Outcome.testFailed v ∈ (processLoop func context test plugins []).1 →
            v.errorOrders.Nodup) :=
  ⟨recordError_cases, recordError_length, recordError_mem, recordError_nodup,
    fun _ func context plugin insts eo =>
      ⟨runInstances_snd_extends func context plugin insts eo,
        runInstances_snd_nodup func context plugin insts eo⟩,
    fun _ func context test plugins v hv =>
      processLoop_testFailed_nodup func context test plugins [] List.nodup_nil v hv⟩

/-- C2: when the test rejects a plugin, the run yields exactly the one
`TestFailed` outcome carrying the current `order` and `errorOrders` and
stops: the trace is independent of the remaining plugins and of `func`
(so `func` is never called for them), and in every run a `TestFailed`
outcome is unique, last, and incompatible with an engine error. -/
theorem testFailed_aborts_run :
    (∀ (ε : Type)
        (func : Plugin → List Inst → Option Inst → Except ε ResultRecord)
        (context : List Inst) (test : Int → List Int → Bool)
        (plugin : Plugin) (rest : List Plugin) (eo : List Int),
        test plugin.order eo = false →
          processLoop func context test (plugin :: rest) eo
            = ([Outcome.testFailed ⟨plugin.order, eo⟩], none))
      ∧ (∀ (ε : Type)
          (func : Plugin → List Inst → Option Inst → Except ε ResultRecord)
          (context : List Inst) (test : Int → List Int → Bool)
          (plugins : List Plugin) (eo : List Int),
          (processLoop func context test plugins eo).1.countP isTestFailedB ≤ 1
          ∧ ∀ v, Outcome.testFailed v ∈ (processLoop func context test plugins eo).1 →
              (processLoop func context test plugins eo).1.getLast?
                  = some (Outcome.testFailed v)
              ∧ (processLoop func context test plugins eo).2 = none) := by
  constructor
  · intro ε func context test plugin rest eo h
    simp [processLoop, h]
  · intro ε func context test plugins eo
    exact processLoop_abort_aux func context test plugins eo

/-- C5: an exception raised by `func` is yielded as exactly one outcome
for that invocation, leaves `errorOrders` unchanged, and the loop goes on
with the next instance (or finishes the plugin's block when the target is
context-scoped) instead of terminating. -/
theorem exception_one_outcome {ε : Type}
    (func : Plugin → List Inst → Option Inst → Except ε ResultRecord)
    (context : List Inst) (plugin : Plugin) (inst : Option Inst)
    (rest : List (Option Inst)) (eo : List Int) (e : ε)
    (h : func plugin context inst = Except.error e) :
    runInstances func context plugin (inst :: rest) eo
      = if "instance" ∈ Provider.args plugin.process then
          (Outcome.exception e :: (runInstances func context plugin rest eo).1,
           (runInstances func context plugin rest eo).2)
        else ([Outcome.exception e], eo) := by
  by_cases hp : "instance" ∈ Provider.args plugin.process
  · simp [runInstances, hp, h, invokeOutcome, invokeOrders]
  · simp [runInstances, hp, h, invokeOutcome, invokeOrders]

/-- C5 witness: a raising invocation function over two instances. -/
theorem exception_one_outcome_witness :
    runInstances funcRaise [] pWild [some iFull, some iOther] []
      = if "instance" ∈ Provider.args pWild.process then
          (Outcome.exception () :: (runInstances funcRaise [] pWild [some iOther] []).1,
           (runInstances funcRaise [] pWild [some iOther] []).2)
        else ([Outcome.exception ()], []) :=
  exception_one_outcome funcRaise [] pWild (some iFull) [some iOther] [] () rfl

/-- C6: a plugin whose invocation target declares no `instance` parameter
is invoked exactly once however many instances were matched: the block
for the remaining instances is never entered. -/
theorem context_scoped_invoked_once {ε : Type}
    (func : Plugin → List Inst → Option Inst → Except ε ResultRecord)
    (context : List Inst) (plugin : Plugin) (inst : Option Inst)
    (rest : List (Option Inst)) (eo : List Int)
    (h : "instance" ∉ Provider.args plugin.process) :
    runInstances func context plugin (inst :: rest) eo
      = ([invokeOutcome (func plugin context inst)],
         invokeOrders plugin.order (func plugin context inst) eo) := by
  simp [runInstances, h]

/-- C6 witness: the context-scoped plugin `pCtx` over two matching
instances yields a single outcome. -/
theorem context_scoped_invoked_once_witness :
    runInstances funcOk [iFull, iOther] pCtx [some iFull, some iOther] []
      = ([invokeOutcome (funcOk pCtx [iFull, iOther] (some iFull))],
         invokeOrders pCtx.order (funcOk pCtx [iFull, iOther] (some iFull)) []) :=
  context_scoped_invoked_once funcOk [iFull, iOther] pCtx (some iFull)
    [some iOther] [] (by decide)

/-- C7: a wildcard plugin with zero compatible instances is still invoked,
exactly once, with the null instance: its block is the single outcome of
`func plugin context none`, after which the run continues with the
remaining plugins. -/
theorem wildcard_empty_runs_once {ε : Type}
    (func : Plugin → List Inst → Option Inst → Except ε ResultRecord)
    (context : List Inst) (test : Int → List Int → Bool) (plugin : Plugin)
    (rest : List Plugin) (eo : List Int) (fams : List String)
    (hfam : plugin.families = some fams) (hw : "*" ∈ fams)
    (hz : instances_by_plugin context plugin = [])
    (ht : test plugin.order eo = true) :
    processLoop func context test (plugin :: rest) eo
      = (invokeOutcome (func plugin context none)
           :: (processLoop func context test rest
                (invokeOrders plugin.order (func plugin context none) eo)).1,
         (processLoop func context test rest
           (invokeOrders plugin.order (func plugin context none) eo)).2) := by
  by_cases hp : "instance" ∈ Provider.args plugin.process
  · simp [processLoop, ht, hz, hfam, hw, gen, runInstances, hp]
  · simp [processLoop, ht, hz, hfam, hw, gen, runInstances, hp]

/-- C7 witness: the wildcard plugin `pWild` over an empty context. -/
theorem wildcard_empty_runs_once_witness :
    processLoop funcOk [] default_test [pWild] []
      = (invokeOutcome (funcOk pWild [] none)
           :: (processLoop funcOk [] default_test []
                (invokeOrders pWild.order (funcOk pWild [] none) [])).1,
         (processLoop funcOk [] default_test []
           (invokeOrders pWild.order (funcOk pWild [] none) [])).2) :=
  wildcard_empty_runs_once funcOk [] default_test pWild [] [] ["*"]
    rfl (by decide) rfl (by decide)

/-- C10: for a plugin lacking the `families` attribute no instance is
compatible, and when the test passes for it the generator raises
`AttributeError` at the wildcard membership check (yielding nothing for
this or any later plugin) instead of skipping the plugin the way the
standalone filters do. -/
theorem missing_families_raises {ε : Type}
    (func : Plugin → List Inst → Option Inst → Except ε ResultRecord)
    (context : List Inst) (test : Int → List Int → Bool) (plugin : Plugin)
    (rest : List Plugin) (eo : List Int)
    (hfam : plugin.families = none) (ht : test plugin.order eo = true) :
    instances_by_plugin context plugin = []
    ∧ processLoop func context test (plugin :: rest) eo
        = ([], some (EngineError.attributeError "families")) := by
  have hz := instances_by_plugin_none context plugin hfam
  refine ⟨hz, ?_⟩
  simp [processLoop, ht, hz, hfam]

/-- C10 witness: a run over `pNoFam` (then `pWild`) raises at once. -/
theorem missing_families_raises_witness :
    instances_by_plugin [iFull] pNoFam = []
    ∧ processLoop funcOk [iFull] default_test [pNoFam, pWild] []
        = ([], some (EngineError.attributeError "families")) :=
  missing_families_raises funcOk [iFull] default_test pNoFam [pWild] [] rfl (by decide)

/-- C1 as stated is false: `funcOk` never sets an error (it returns
`Except.ok` with `error := none` on every input) and `pWild`'s family
filter matches every context through its wildcard, yet the run over
`[pNoFam, pWild]` with the default test yields no outcome at all — it
raises `AttributeError` at `pNoFam`, so the matching plugin `pWild` is
never processed. -/
theorem process_no_error_cex :
    pWild.families = some ["*"]
    ∧ process funcOk [pNoFam, pWild] [] none
        = ([], some (EngineError.attributeError "families")) := by
  refine ⟨rfl, ?_⟩
  decide

/-- C1 amended (restricted to plugin lists in which every plugin has a
`families` attribute): when no result of `func` ever carries an error, a
run with the default test is the concatenation, in input order, of the
per-plugin outcome blocks, ends without engine error, yields no
`TestFailed`, and yields a non-empty block for every plugin whose family
filter matches. -/
theorem process_no_error_completes {ε : Type}
    (func : Plugin → List Inst → Option Inst → Except ε ResultRecord)
    (plugins : List Plugin) (context : List Inst)
    (hfam : ∀ p ∈ plugins, p.families ≠ none)
    (herr : ∀ p c i r, func p c i = Except.ok r → r.error = none) :
    process func plugins context none
        = ((plugins.map (pluginBlock func context)).flatten, none)
      ∧ (∀ o ∈ (process func plugins context none).1, isTestFailedB o = false)
      ∧ ∀ p, pluginMatches context p = true → pluginBlock func context p ≠ [] := by
  have hmain : process func plugins context none
      = ((plugins.map (pluginBlock func context)).flatten, none) :=
    processLoop_no_error_eq func context herr plugins hfam
  refine ⟨hmain, ?_, ?_⟩
  · intro o ho
    have h1 : (process func plugins context none).1
        = (plugins.map (pluginBlock func context)).flatten := by rw [hmain]
    rw [h1, List.mem_flatten] at ho
    obtain ⟨l, hl, hol⟩ := ho
    obtain ⟨p, _, rfl⟩ := List.mem_map.mp hl
    cases o with
    | result r => rfl
    | exception e => rfl
    | testFailed v =>
      exfalso
      unfold pluginBlock at hol
      by_cases hm : pluginMatches context p = true
      · rw [if_pos hm] at hol
        exact runInstances_no_testFailed func context p _ _ v hol
      · rw [if_neg hm] at hol
        simp at hol
  · intro p hm
    unfold pluginBlock
    rw [if_pos hm]
    cases hg : gen (instances_by_plugin context p) with
    | nil => exact absurd hg (gen_ne_nil _)
    | cons i rest =>
      have hpos := runInstances_length_pos func context p i rest []
      intro hnil
      rw [hnil] at hpos
      simp at hpos

/-- C1 witness: an error-free run over two plugins with `families`
attributes, against a one-instance context. -/
theorem process_no_error_completes_witness :
    process funcOk [pWild, pFull] [iFull] none
        = (([pWild, pFull].map (pluginBlock funcOk [iFull])).flatten, none)
      ∧ (∀ o ∈ (process funcOk [pWild, pFull] [iFull] none).1,
          isTestFailedB o = false)
      ∧ ∀ p, pluginMatches [iFull] p = true → pluginBlock funcOk [iFull] p ≠ [] :=
  process_no_error_completes funcOk [pWild, pFull] [iFull] (by decide)
    (fun p c i r h => by
      simp only [funcOk] at h
      injection h with h2
      rw [← h2])

end Pyblish

